import Mathlib

/-!
Verification development for the obsidian-relative-time plugin sources
(`src/main.ts`, which contains an RFC-3339 plugin document and a Discord
epoch-tag plugin document, and `src/unnamed/part_000`, an RFC-3339 plugin
with date-only support).

The JavaScript regexes, the CodeMirror decoration builders, the
reading-view post-processors and the widget `toDOM` methods are embedded
as executable Lean functions over `List Char` / `String`.  Host platform
primitives (`Date` parsing, `toISOString`, `toLocaleString`) are modelled
explicitly: `Date` parsing of the ISO shapes that reach it is implemented
with calendar arithmetic and the ECMAScript time-value range check;
locale formatting is a parameter (it may fail, modelling a thrown
exception from an unsupported locale/option combination).
-/

namespace RelTime

/-- The inline-code delimiter character (U+0060). -/
def backtickChar : Char := Char.ofNat 96

/-! ## Regex-fragment combinators

Each fragment of the source regexes is embedded as a function that either
fails or splits its input into the matched prefix and the rest.  The
alternation order mirrors the backtracking order of the JavaScript regex
engine; for these particular patterns the alternatives are mutually
exclusive on success (a time part starts with `T`, a zone with `Z`/`+`/`-`,
a fraction with `.`), so the deterministic functions below compute exactly
the JS match. -/

abbrev Chomp := List Char → Option (List Char × List Char)

def pChar (p : Char → Bool) : Chomp := fun s =>
  match s with
  | c :: r => if p c then some ([c], r) else none
  | [] => none

def pLit (c : Char) : Chomp := pChar (fun d => d == c)

def pseq (p q : Chomp) : Chomp := fun s =>
  match p s with
  | some (m1, r1) =>
    match q r1 with
    | some (m2, r2) => some (m1 ++ m2, r2)
    | none => none
  | none => none

def palt (p q : Chomp) : Chomp := fun s =>
  match p s with
  | some x => some x
  | none => q s

def pDigits : Nat → Chomp
  | 0 => fun s => some ([], s)
  | n + 1 => pseq (pChar Char.isDigit) (pDigits n)

/-- Greedy run of digits (the `\d+` and `\d*` behaviour). -/
def spanDigits : List Char → List Char × List Char
  | [] => ([], [])
  | c :: r =>
    if c.isDigit then
      let x := spanDigits r
      (c :: x.1, x.2)
    else ([], c :: r)

/-- `\d+` : one or more digits, greedy. -/
def pDigits1 : Chomp := fun s =>
  let x := spanDigits s
  if x.1.isEmpty then none else some x

/-- `Z|[+-]\d{2}:\d{2}` -/
def pZone : Chomp :=
  palt (pLit 'Z')
    (pseq (pChar (fun c => c == '+' || c == '-'))
      (pseq (pDigits 2) (pseq (pLit ':') (pDigits 2))))

/-- `\.\d+` -/
def pFrac : Chomp := pseq (pLit '.') pDigits1

/-- `(?::\d{2}(?:\.\d+)?)?(?:Z|[+-]\d{2}:\d{2})` in part_000's
`rfcTimeAndZonePart`, with JS backtracking order: optional seconds first,
optional fraction first. -/
def pSecFracZone : Chomp :=
  palt (pseq (pLit ':') (pseq (pDigits 2) (palt (pseq pFrac pZone) pZone))) pZone

/-- `\d{4}-\d{2}-\d{2}` (`rfcDatePart` in part_000, the date part of
`rfc3339PatternSrc` in main.ts). -/
def pDate : Chomp :=
  pseq (pDigits 4) (pseq (pLit '-') (pseq (pDigits 2) (pseq (pLit '-') (pDigits 2))))

/-- `T\d{2}:\d{2}(?::\d{2}(?:\.\d+)?)?(?:Z|[+-]\d{2}:\d{2})`
(part_000's `rfcTimeAndZonePart`). -/
def pTimeZonePart : Chomp :=
  pseq (pLit 'T') (pseq (pDigits 2) (pseq (pLit ':') (pseq (pDigits 2) pSecFracZone)))

/-- `T\d{2}:\d{2}:\d{2}(?:\.\d+)?(?:Z|[+-]\d{2}:\d{2})`, the mandatory
time part of main.ts's `rfc3339PatternSrc` (seconds are required there). -/
def pTimeMain : Chomp :=
  pseq (pLit 'T')
    (pseq (pDigits 2)
      (pseq (pLit ':')
        (pseq (pDigits 2)
          (pseq (pLit ':')
            (pseq (pDigits 2) (palt (pseq pFrac pZone) pZone))))))

/-! ## Token matchers (editor variants)

An editor matcher examines the text at the current scan position and, on
success, returns the extracted capture groups together with the rest of
the input after the whole match (delimiters included). -/

/-- part_000's `editorRegex`:
``new RegExp('`(' + rfcDatePart + ')(' + rfcTimeAndZonePart + ')?`', 'g')``.
Returns `((capturedDateTimeString, isDateOnly), rest)`.

If the optional time part matches, the next character must close the
inline code span; falling back to the empty time part cannot succeed then
(the time part starts with `T`, not a backtick), exactly as in JS
backtracking. -/
def matchRfcToken : List Char → Option ((String × Bool) × List Char) := fun s =>
  match s with
  | c :: s1 =>
    if c = backtickChar then
      match pDate s1 with
      | some (dm, s2) =>
        match pTimeZonePart s2 with
        | some (tm, s3) =>
          match s3 with
          | c2 :: s4 => if c2 = backtickChar then some ((String.mk (dm ++ tm), false), s4) else none
          | [] => none
        | none =>
          match s2 with
          | c2 :: s4 => if c2 = backtickChar then some ((String.mk dm, true), s4) else none
          | [] => none
      | none => none
    else none
  | [] => none

/-- main.ts's `editorRfc3339Regex`:
``new RegExp('`(' + rfc3339PatternSrc + ')`', 'g')``.
Returns `(capturedRfc3339String, rest)`. -/
def matchMainRfcToken : List Char → Option (String × List Char) := fun s =>
  match s with
  | c :: s1 =>
    if c = backtickChar then
      match pseq pDate pTimeMain s1 with
      | some (m, s2) =>
        match s2 with
        | c2 :: s3 => if c2 = backtickChar then some (String.mk m, s3) else none
        | [] => none
      | none => none
    else none
  | [] => none

def isEpochFlag (c : Char) : Bool :=
  c == 't' || c == 'T' || c == 'd' || c == 'D' || c == 'f' || c == 'F' || c == 'R'

/-- The inner `<t:(\d+)(?::[tTdDfFR])?>` of main.ts's epoch-tag regexes.
Returns `((wholeTagChars, digitChars), rest)` (group 1 and group 2 of
`editorTimestampRegex`). -/
def matchEpochInner : List Char → Option ((List Char × List Char) × List Char) := fun s =>
  match s with
  | '<' :: 't' :: ':' :: s1 =>
    let x := spanDigits s1
    if x.1.isEmpty then none
    else
      match x.2 with
      | ':' :: f :: '>' :: r =>
        if isEpochFlag f then
          some (('<' :: 't' :: ':' :: (x.1 ++ [':', f, '>']), x.1), r)
        else none
      | '>' :: r => some (('<' :: 't' :: ':' :: (x.1 ++ ['>']), x.1), r)
      | _ => none
  | _ => none

/-- main.ts's `editorTimestampRegex`: ``/`(<t:(\d+)(?::[tTdDfFR])?>)`/g``. -/
def matchEpochToken : List Char → Option ((List Char × List Char) × List Char) := fun s =>
  match s with
  | c :: s1 =>
    if c = backtickChar then
      match matchEpochInner s1 with
      | some (d, s2) =>
        match s2 with
        | c2 :: s3 => if c2 = backtickChar then some (d, s3) else none
        | [] => none
      | none => none
    else none
  | [] => none

/-! ## Anchored reading-view matchers

The reading-view regexes are anchored (`^...$`): the whole `<code>`
text content must match. -/

/-- part_000's `readingViewRegex`:
``new RegExp(`^(${rfcDatePart})(${rfcTimeAndZonePart})?$`)``.
Returns `(capturedDateTimeString, isDateOnly)`. -/
def fullMatchRfcPart (s : List Char) : Option (String × Bool) :=
  match pDate s with
  | some (dm, s2) =>
    match pTimeZonePart s2 with
    | some (tm, []) => some (String.mk (dm ++ tm), false)
    | some (_, _ :: _) => none
    | none =>
      match s2 with
      | [] => some (String.mk dm, true)
      | _ :: _ => none
  | none => none

/-- main.ts's `readingViewRfc3339Regex`:
``new RegExp(`^(${rfc3339PatternSrc})$`)``. -/
def readingViewRfc3339Match (s : List Char) : Option String :=
  match pseq pDate pTimeMain s with
  | some (m, []) => some (String.mk m)
  | some (_, _ :: _) => none
  | none => none

/-- main.ts's `readingViewTimestampRegex`: `/^<t:(\d+)(?::[tTdDfFR])?>$/`.
Returns the captured digit string (group 1). -/
def readingViewTimestampMatch (s : List Char) : Option (List Char) :=
  match matchEpochInner s with
  | some ((_, ds), []) => some ds
  | some (_, _ :: _) => none
  | none => none

/-! ## The host `Date` model -/

/-- Value of a digit string (exact; `parseInt` on the decimal digit
strings produced by the regexes). -/
def digitsToNat (ds : List Char) : Nat :=
  ds.foldl (fun acc c => 10 * acc + (c.toNat - 48)) 0

/-- `parseInt(str, 10)` restricted to the inputs that occur here: the
regex capture is a nonempty decimal digit string, for which `parseInt`
never yields `NaN`. -/
def parseIntDigits (ds : List Char) : Option Nat :=
  if ds ≠ [] ∧ ds.all Char.isDigit then some (digitsToNat ds) else none

/-- ECMAScript maximal time value: 8,640,000,000,000,000 ms. -/
def maxTimeValue : Nat := 8640000000000000

def msInRange (ms : Int) : Bool := ms.natAbs ≤ maxTimeValue

def isLeapYear (y : Nat) : Bool :=
  y % 4 == 0 && (y % 100 != 0 || y % 400 == 0)

def daysInMonth (y m : Nat) : Nat :=
  if m == 2 then (if isLeapYear y then 29 else 28)
  else if m == 4 || m == 6 || m == 9 || m == 11 then 30
  else 31

/-- Days since 1970-01-01 of the civil date `y-m-d` (proleptic Gregorian,
the classic days-from-civil computation). -/
def civilDays (y : Int) (m d : Nat) : Int :=
  let yy : Int := if m ≤ 2 then y - 1 else y
  let era : Int := (if 0 ≤ yy then yy else yy - 399) / 400
  let yoe : Int := yy - era * 400
  let mp : Nat := (m + 9) % 12
  let doy : Nat := (153 * mp + 2) / 5 + d - 1
  let doe : Int := yoe * 365 + yoe / 4 - yoe / 100 + (doy : Int)
  era * 146097 + doe - 719468

/-- Inverse of `civilDays`: the civil date of a day count. -/
def civilFromDays (z : Int) : Int × Nat × Nat :=
  let zz : Int := z + 719468
  let era : Int := (if 0 ≤ zz then zz else zz - 146096) / 146097
  let doe : Nat := (zz - era * 146097).toNat
  let yoe : Nat := (doe - doe / 1460 + doe / 36524 - doe / 146096) / 365
  let y : Int := (yoe : Int) + era * 400
  let doy : Nat := doe - (365 * yoe + yoe / 4 - yoe / 100)
  let mp : Nat := (5 * doy + 2) / 153
  let d : Nat := doy - (153 * mp + 2) / 5 + 1
  let mo : Nat := if mp < 10 then mp + 3 else mp - 9
  (if mo ≤ 2 then y + 1 else y, mo, d)

/-- Reads exactly `n` decimal digits as a number, returning the rest. -/
def readDigits : Nat → List Char → Option (Nat × List Char)
  | 0, s => some (0, s)
  | n + 1, c :: r =>
    if c.isDigit then
      match readDigits n r with
      | some (v, rest) => some ((c.toNat - 48) * 10 ^ n + v, rest)
      | none => none
    else none
  | _ + 1, [] => none

def expectChar (c : Char) : List Char → Option (List Char)
  | d :: r => if d = c then some r else none
  | [] => none

/-- Milliseconds contributed by the fractional-seconds digits: the first
three digits, right-padded with zeros. -/
def fracMs (ds : List Char) : Nat :=
  match ds with
  | [] => 0
  | [a] => (a.toNat - 48) * 100
  | [a, b] => (a.toNat - 48) * 100 + (b.toNat - 48) * 10
  | a :: b :: c :: _ => (a.toNat - 48) * 100 + (b.toNat - 48) * 10 + (c.toNat - 48)

/-- Field validation and time-value computation for an ISO date-time,
as the host `Date` constructor performs on format-conforming strings:
calendar fields must be in range and the resulting time value must not
exceed ±8.64e15 ms, otherwise the `Date` is invalid (`getTime()` is NaN). -/
def mkUtcMs (y mo d hh mi ss ms : Nat) (offMinutes : Int) : Option Int :=
  if 1 ≤ mo ∧ mo ≤ 12 ∧ 1 ≤ d ∧ d ≤ daysInMonth y mo ∧ hh ≤ 23 ∧ mi ≤ 59 ∧ ss ≤ 59 then
    let t : Int :=
      (civilDays (y : Int) mo d * 86400 + (hh * 3600 + mi * 60 + ss : Nat)) * 1000
        + (ms : Nat) - offMinutes * 60000
    if msInRange t then some t else none
  else none

/-- Zone designator: `Z` or `±HH:MM`, yielding the offset in minutes. -/
def readZone : List Char → Option (Int × List Char)
  | 'Z' :: r => some (0, r)
  | c :: r =>
    if c == '+' || c == '-' then
      match readDigits 2 r with
      | some (zh, r1) =>
        match expectChar ':' r1 with
        | some r2 =>
          match readDigits 2 r2 with
          | some (zm, r3) =>
            if zh ≤ 23 ∧ zm ≤ 59 then
              some ((if c == '-' then -((zh * 60 + zm : Nat) : Int) else ((zh * 60 + zm : Nat) : Int)), r3)
            else none
          | none => none
        | none => none
      | none => none
    else none
  | [] => none

/-- Model of `new Date(str).getTime()` for the ISO-shaped strings this
plugin produces: `YYYY-MM-DD` (parsed as UTC midnight) or
`YYYY-MM-DDTHH:MM[:SS[.fff…]](Z|±HH:MM)`.  Returns `none` when the string
does not have this shape or a field is out of range (an invalid `Date`,
i.e. `isNaN(date.getTime())`). -/
def jsDateParse (s : List Char) : Option Int :=
  match readDigits 4 s with
  | none => none
  | some (y, s1) =>
    match expectChar '-' s1 with
    | none => none
    | some s2 =>
      match readDigits 2 s2 with
      | none => none
      | some (mo, s3) =>
        match expectChar '-' s3 with
        | none => none
        | some s4 =>
          match readDigits 2 s4 with
          | none => none
          | some (d, s5) =>
            match s5 with
            | [] => mkUtcMs y mo d 0 0 0 0 0
            | 'T' :: s6 =>
              match readDigits 2 s6 with
              | none => none
              | some (hh, s7) =>
                match expectChar ':' s7 with
                | none => none
                | some s8 =>
                  match readDigits 2 s8 with
                  | none => none
                  | some (mi, s9) =>
                    match s9 with
                    | ':' :: s10 =>
                      match readDigits 2 s10 with
                      | none => none
                      | some (ss, s11) =>
                        match s11 with
                        | '.' :: s12 =>
                          let x := spanDigits s12
                          if x.1.isEmpty then none
                          else
                            match readZone x.2 with
                            | some (off, []) => mkUtcMs y mo d hh mi ss (fracMs x.1) off
                            | _ => none
                        | _ =>
                          match readZone s11 with
                          | some (off, []) => mkUtcMs y mo d hh mi ss 0 off
                          | _ => none
                    | _ =>
                      match readZone s9 with
                      | some (off, []) => mkUtcMs y mo d hh mi 0 0 off
                      | _ => none
            | _ => none

def padZeros (w n : Nat) : String :=
  let s := toString n
  if s.length < w then String.mk (List.replicate (w - s.length) '0') ++ s else s

/-- Model of `Date.prototype.toISOString` on a (valid) time value. -/
def toISOStringOfMs (ms : Int) : String :=
  let day : Int := ms / 86400000 - (if ms % 86400000 < 0 then 1 else 0)
  let msod : Nat := (ms - day * 86400000).toNat
  let ymd := civilFromDays day
  let y := ymd.1
  let mo := ymd.2.1
  let d := ymd.2.2
  let hh := msod / 3600000
  let mi := msod % 3600000 / 60000
  let ss := msod % 60000 / 1000
  let mss := msod % 1000
  let ystr :=
    if 0 ≤ y ∧ y ≤ 9999 then padZeros 4 y.toNat
    else if y < 0 then "-" ++ padZeros 6 (-y).toNat
    else "+" ++ padZeros 6 y.toNat
  ystr ++ "-" ++ padZeros 2 mo ++ "-" ++ padZeros 2 d ++ "T" ++ padZeros 2 hh ++ ":"
    ++ padZeros 2 mi ++ ":" ++ padZeros 2 ss ++ "." ++ padZeros 3 mss ++ "Z"

/-- Model of `Date.prototype.toString`: an always-valid plain string
representation determined by the instant alone. -/
def jsDateToString (ms : Int) : String := "[Date " ++ toString ms ++ "]"

/-! ## Locale formatting model

`Intl.DateTimeFormatOptions` as used by the sources, and the host locale
formatting primitives.  A host call receives the instant and the options
and either returns a string or throws (modelled as `Except.error ()`),
e.g. for an unsupported locale/option combination. -/

structure FmtOptions where
  weekday : Option String
  year : Option String
  month : Option String
  day : Option String
  hour : Option String
  minute : Option String
  second : Option String
  timeZoneName : Option String
  timeZone : Option String
  hour12 : Option Bool
deriving DecidableEq

structure JsLocale where
  fmtString : Int → FmtOptions → Except Unit String
  fmtDateString : Int → FmtOptions → Except Unit String

/-- `date.toLocaleString(undefined, o)` with a `try`/`catch` falling back
to `date.toString()`, the pattern used by all four main.ts render paths. -/
def localeStringOrFallback (loc : JsLocale) (ms : Int) (o : FmtOptions) : String :=
  match loc.fmtString ms o with
  | .ok t => t
  | .error _ => jsDateToString ms

/-! ## DOM model -/

inductive Dom where
  | text (s : String)
  | elem (tag : String) (classes : List String) (attrs : List (String × String))
      (children : List Dom)

/-- `document.createElement('relative-time')` with the given classes and
attributes (in `setAttribute`/property-assignment order). -/
def mkRelTime (classes : List String) (attrs : List (String × String)) : Dom :=
  .elem "relative-time" classes attrs []

/-! ## Editor widgets and builders: main.ts RFC-3339 document -/

namespace MainRFC

/-- `RFC3339TimestampWidget` (main.ts): holds the captured RFC 3339
string. -/
structure RFC3339TimestampWidget where
  rfc3339String : String
deriving DecidableEq

/-- `titleFormat` in `RFC3339TimestampWidget.toDOM`. -/
def titleFormat : FmtOptions :=
  ⟨some "long", some "numeric", some "long", some "numeric",
   some "numeric", some "numeric", none, some "short", none, none⟩

/-- The validity test `!isNaN(new Date(rfc3339String).getTime())` used by
both the builder and the widget. -/
def resolve (s : String) : Option Int := jsDateParse s.data

/-- `RFC3339TimestampWidget.toDOM`: for an invalid date the raw string is
rendered as plain text inside the styled span; otherwise a
`relative-time` element with `datetime` and a `title` that falls back to
`date.toString()` when locale formatting throws.  Total: no exception
escapes this path. -/
def widgetToDOM (w : RFC3339TimestampWidget) (loc : JsLocale) : Dom :=
  match resolve w.rfc3339String with
  | none =>
    .elem "span" ["rfc3339-relative-time-widget-wrapper"] []
      [.elem "span" ["rfc3339-relative-time-styled-codeblock"] [] [.text w.rfc3339String]]
  | some ms =>
    .elem "span" ["rfc3339-relative-time-widget-wrapper"] []
      [.elem "span" ["rfc3339-relative-time-styled-codeblock"] []
        [mkRelTime []
          [("datetime", toISOStringOfMs ms),
           ("title", localeStringOrFallback loc ms titleFormat)]]]

end MainRFC

/-! ## Editor widgets: main.ts epoch-tag (Discord) document -/

namespace MainEpoch

/-- `TimestampWidget` (main.ts, Discord document): the `<t:…>` tag text
and the parsed UNIX timestamp. -/
structure TimestampWidget where
  fullTimestampString : String
  unixTimestamp : Nat
deriving DecidableEq

/-- `titleFormat` in `TimestampWidget.toDOM` (no `timeZoneName`). -/
def titleFormat : FmtOptions :=
  ⟨some "long", some "numeric", some "long", some "numeric",
   some "numeric", some "numeric", none, none, none, none⟩

/-- `TimestampWidget.toDOM`: `new Date(unixTimestamp * 1000)`, then
`date.toISOString()` — which throws a `RangeError` when the time value is
out of range (the builder never validated it) — then a `title` with
`try`/`catch` fallback. -/
def widgetToDOM (w : TimestampWidget) (loc : JsLocale) : Except Unit Dom :=
  let ms : Int := (w.unixTimestamp : Int) * 1000
  if msInRange ms then
    .ok (.elem "span" ["discord-relative-time-widget-wrapper"] []
      [mkRelTime ["discord-relative-time"]
        [("datetime", toISOStringOfMs ms),
         ("title", localeStringOrFallback loc ms titleFormat)]])
  else .error ()

end MainEpoch

/-! ## Editor widgets: part_000 RFC-3339 document (date-only support) -/

namespace PartRFC

/-- `RFC3339Widget` (part_000). -/
structure RFC3339Widget where
  matchedDateString : String
  isDateOnly : Bool
deriving DecidableEq

/-- The options record built inside `formatAbsoluteDateTime`.  Note that
it contains `hour: 'numeric'` and `minute: '2-digit'` (and
`hour12: false`), and that the `isDateOnly` branch returns
`date.toLocaleDateString(undefined, options)` with this very record;
the `YYYY-MM-DD` code below that `return` is unreachable. -/
def absOptions : FmtOptions :=
  ⟨none, some "numeric", some "short", some "numeric",
   some "numeric", some "2-digit", none, none, none, some false⟩

/-- `formatAbsoluteDateTime(date, isDateOnly)`: a host locale call with
`absOptions`, via `toLocaleDateString` when `isDateOnly` and
`toLocaleString` otherwise.  Not wrapped in `try`/`catch` at any call
site. -/
def formatAbsoluteDateTime (loc : JsLocale) (ms : Int) (isDateOnly : Bool) :
    Except Unit String :=
  if isDateOnly then loc.fmtDateString ms absOptions else loc.fmtString ms absOptions

/-- The `titleFormatOptions` of `RFC3339Widget.toDOM` and of
`processTimestampsInReadingView` (part_000). -/
def titleOptions (isDateOnly : Bool) : FmtOptions :=
  ⟨some "long", some "numeric", some "long", some "numeric",
   if isDateOnly then none else some "numeric",
   if isDateOnly then none else some "2-digit",
   none,
   if isDateOnly then none else some "short",
   if isDateOnly then some "UTC" else none,
   none⟩

/-- `'T00:00:00Z'` appended to date-only strings before `new Date(...)`
(both in `buildDecorations` and in the render paths). -/
def processedString (s : String) (isDateOnly : Bool) : String :=
  if isDateOnly then s ++ "T00:00:00Z" else s

/-- The `new Date(tempProcessedString)` validity test of part_000. -/
def resolve (s : String) (isDateOnly : Bool) : Option Int :=
  jsDateParse (processedString s isDateOnly).data

/-- `RFC3339Widget.toDOM`: invalid dates render the raw string as plain
text; valid ones render the absolute label and a `relative-time` element
with `format`, `threshold` and a locale-formatted `title`.  Both locale
calls (`formatAbsoluteDateTime` and the `title` assignment) are **not**
wrapped in `try`/`catch`: a thrown formatting exception propagates out of
`toDOM` (modelled by `Except.error`). -/
def widgetToDOM (w : RFC3339Widget) (loc : JsLocale) : Except Unit Dom :=
  match resolve w.matchedDateString w.isDateOnly with
  | none =>
    .ok (.elem "span" ["rfc3339-relative-time-widget-wrapper"] []
      [.elem "span" ["rfc3339-relative-time-styled-codeblock"] [] [.text w.matchedDateString]])
  | some ms => do
    let absText ← formatAbsoluteDateTime loc ms w.isDateOnly
    let title ← loc.fmtString ms (titleOptions w.isDateOnly)
    .ok (.elem "span" ["rfc3339-relative-time-widget-wrapper"] []
      [.elem "span" ["rfc3339-relative-time-styled-codeblock"] []
        [.elem "span" [] [] [.text absText],
         .text " (",
         mkRelTime []
           [("datetime", toISOStringOfMs ms), ("format", "relative"),
            ("threshold", "P100Y"), ("title", title)],
         .text ")"]])

end PartRFC

/-! ## The decoration engine

`buildDecorations` / `buildRFC3339TimestampDecorations` /
`buildTimestampDecorations` all follow the same shape: for each visible
range, slice the document, reset the shared regex's `lastIndex` to 0,
scan the slice left to right with `exec`, optionally test the selection
overlap, validate, and add a replacing decoration spanning the full
match.  The scan is embedded generically over a token matcher. -/

structure VRange where
  vFrom : Nat
  vTo : Nat
deriving DecidableEq

/-- One selection sub-range (`selRange.from`/`selRange.to`; a cursor has
`selFrom = selTo`). -/
structure SelRange where
  selFrom : Nat
  selTo : Nat
deriving DecidableEq

/-- The closed-interval overlap test of both RFC builders:
`selRange.from <= endPos && selRange.to >= startPos` for ANY selection
sub-range. -/
def cursorIsInside (sel : List SelRange) (startPos endPos : Nat) : Bool :=
  sel.any (fun r => decide (r.selFrom ≤ endPos) && decide (startPos ≤ r.selTo))

structure Instr (W : Type) where
  startPos : Nat
  endPos : Nat
  widget : W
deriving DecidableEq

/-- The `while ((match = regex.exec(text)) !== null)` scan: starting at
the current index, the engine finds the leftmost match at or after it and
resumes immediately after the match's end.  `fuel` is an upper bound on
the number of steps (the slice length suffices since every token is
nonempty). -/
def scanAux {α : Type} (tok : List Char → Option (α × List Char)) :
    Nat → List Char → Nat → List (Nat × Nat × α)
  | 0, _, _ => []
  | _ + 1, [], _ => []
  | fuel + 1, c :: cs, i =>
    match tok (c :: cs) with
    | some (a, rest) =>
      (i, (c :: cs).length - rest.length, a)
        :: scanAux tok fuel rest (i + ((c :: cs).length - rest.length))
    | none => scanAux tok fuel cs (i + 1)

/-- All matches of a token pattern in a slice, as
`(indexInSlice, matchedLength, captures)`, in left-to-right order. -/
def tokenMatches {α : Type} (tok : List Char → Option (α × List Char))
    (s : List Char) : List (Nat × Nat × α) :=
  scanAux tok s.length s 0

/-- `view.state.doc.sliceString(from, to)`. -/
def sliceDoc (doc : List Char) (r : VRange) : List Char :=
  (doc.drop r.vFrom).take (r.vTo - r.vFrom)

/-- The per-visible-range loop body shared by the three builders:
`checkSel` is whether the builder tests the selection (the epoch-tag
builder does not), `valid` the validity guard, `mkW` the widget
constructor. -/
def buildRangeDecos {α W : Type} (tok : List Char → Option (α × List Char))
    (checkSel : Bool) (valid : α → Bool) (mkW : α → W)
    (doc : List Char) (sel : List SelRange) (r : VRange) : List (Instr W) :=
  (tokenMatches tok (sliceDoc doc r)).filterMap (fun m =>
    let startPos := r.vFrom + m.1
    let endPos := startPos + m.2.1
    if checkSel && cursorIsInside sel startPos endPos then none
    else if valid m.2.2 then some ⟨startPos, endPos, mkW m.2.2⟩ else none)

/-- `for (const { from, to } of view.visibleRanges) … builder.finish()`:
decorations of all visible ranges, concatenated in range order. -/
def buildDecos {α W : Type} (tok : List Char → Option (α × List Char))
    (checkSel : Bool) (valid : α → Bool) (mkW : α → W)
    (doc : List Char) (ranges : List VRange) (sel : List SelRange) : List (Instr W) :=
  match ranges with
  | [] => []
  | r :: rs =>
    buildRangeDecos tok checkSel valid mkW doc sel r
      ++ buildDecos tok checkSel valid mkW doc rs sel

/-- part_000's `buildDecorations(view)`. -/
def PartRFC.buildDecorations (doc : List Char) (ranges : List VRange)
    (sel : List SelRange) : List (Instr PartRFC.RFC3339Widget) :=
  buildDecos matchRfcToken true
    (fun d => (PartRFC.resolve d.1 d.2).isSome)
    (fun d => ⟨d.1, d.2⟩) doc ranges sel

/-- main.ts's `buildRFC3339TimestampDecorations(view)`. -/
def MainRFC.buildRFC3339TimestampDecorations (doc : List Char) (ranges : List VRange)
    (sel : List SelRange) : List (Instr MainRFC.RFC3339TimestampWidget) :=
  buildDecos matchMainRfcToken true
    (fun s => (MainRFC.resolve s).isSome)
    (fun s => ⟨s⟩) doc ranges sel

/-- main.ts's `buildTimestampDecorations(view)` (Discord document).
There is **no** selection test, and the only validity guard is
`!isNaN(parseInt(unixTimestampStr, 10))`. -/
def MainEpoch.buildTimestampDecorations (doc : List Char) (ranges : List VRange)
    (sel : List SelRange) : List (Instr MainEpoch.TimestampWidget) :=
  buildDecos matchEpochToken false
    (fun d => (parseIntDigits d.2).isSome)
    (fun d => ⟨String.mk d.1, digitsToNat d.2⟩) doc ranges sel

/-! ### Stateful variants

The source regexes carry the `g` flag, so the regex object holds a
mutable `lastIndex`.  The builders execute `regex.lastIndex = 0` before
scanning each range, and a failing `exec` (the loop's exit condition)
also resets `lastIndex` to 0.  The stateful builders below thread that
cursor explicitly: the incoming value is overwritten by the reset, and
the outgoing value after a scanned range is 0. -/

/-- Scan starting from a given `lastIndex` (matches strictly before it
are not found). -/
def tokenMatchesFrom {α : Type} (tok : List Char → Option (α × List Char))
    (s : List Char) (lastIndex : Nat) : List (Nat × Nat × α) :=
  scanAux tok (s.drop lastIndex).length (s.drop lastIndex) lastIndex

/-- Per-range body with the explicit `lastIndex = 0` reset; the returned
state is the regex's `lastIndex` after the final failing `exec`. -/
def buildRangeDecosFrom {α W : Type} (tok : List Char → Option (α × List Char))
    (checkSel : Bool) (valid : α → Bool) (mkW : α → W)
    (doc : List Char) (sel : List SelRange) (_lastIndex : Nat) (r : VRange) :
    List (Instr W) × Nat :=
  ((tokenMatchesFrom tok (sliceDoc doc r) 0).filterMap (fun m =>
    let startPos := r.vFrom + m.1
    let endPos := startPos + m.2.1
    if checkSel && cursorIsInside sel startPos endPos then none
    else if valid m.2.2 then some ⟨startPos, endPos, mkW m.2.2⟩ else none), 0)

def buildDecosFrom {α W : Type} (tok : List Char → Option (α × List Char))
    (checkSel : Bool) (valid : α → Bool) (mkW : α → W)
    (doc : List Char) (sel : List SelRange) (lastIndex : Nat) :
    List VRange → List (Instr W) × Nat
  | [] => ([], lastIndex)
  | r :: rs =>
    let x := buildRangeDecosFrom tok checkSel valid mkW doc sel lastIndex r
    let y := buildDecosFrom tok checkSel valid mkW doc sel x.2 rs
    (x.1 ++ y.1, y.2)

/-- part_000's `buildDecorations` with the shared `editorRegex`'s
`lastIndex` threaded explicitly. -/
def PartRFC.buildDecorationsFrom (lastIndex : Nat) (doc : List Char)
    (ranges : List VRange) (sel : List SelRange) :
    List (Instr PartRFC.RFC3339Widget) × Nat :=
  buildDecosFrom matchRfcToken true
    (fun d => (PartRFC.resolve d.1 d.2).isSome)
    (fun d => ⟨d.1, d.2⟩) doc sel lastIndex ranges

/-- main.ts's `buildRFC3339TimestampDecorations` with the shared
`editorRfc3339Regex`'s `lastIndex` threaded explicitly. -/
def MainRFC.buildRFC3339TimestampDecorationsFrom (lastIndex : Nat) (doc : List Char)
    (ranges : List VRange) (sel : List SelRange) :
    List (Instr MainRFC.RFC3339TimestampWidget) × Nat :=
  buildDecosFrom matchMainRfcToken true
    (fun s => (MainRFC.resolve s).isSome)
    (fun s => ⟨s⟩) doc sel lastIndex ranges

/-! ## Reading-view post-processors

Each transform inspects one `<code>` element's `textContent` and either
leaves it alone, replaces its content (adding classes and children), or
throws.  `thrown b` records whether the element's content had already
been mutated when the exception was raised. -/

inductive ElemResult where
  | unchanged
  | replaced (classesAdded : List String) (newChildren : List Dom)
  | thrown (mutatedBefore : Bool)

/-- Whether the element's original content is still intact. -/
def ElemResult.contentUntouched : ElemResult → Bool
  | .unchanged => true
  | .replaced _ _ => false
  | .thrown b => !b

/-- main.ts `processTimestampsInReadingView` (RFC-3339 document), per
`<code>` element: anchored match, validity check, then replacement; the
`title` locale call is wrapped in `try`/`catch`. -/
def MainRFC.processCode (textContent : String) (loc : JsLocale) : ElemResult :=
  if textContent.isEmpty then .unchanged
  else
    match readingViewRfc3339Match textContent.data with
    | none => .unchanged
    | some cap =>
      match MainRFC.resolve cap with
      | none => .unchanged
      | some ms =>
        .replaced ["rfc3339-relative-time-styled-codeblock"]
          [mkRelTime []
            [("datetime", toISOStringOfMs ms),
             ("title", localeStringOrFallback loc ms MainRFC.titleFormat)]]

/-- main.ts `processTimestampsInReadingView` (Discord document), per
`<code>` element.  The only validity check is `!isNaN(parseInt(...))`;
for an out-of-range epoch, `date.toISOString()` throws **before**
`innerHTML` is cleared, so the element content stays intact but the
exception escapes. -/
def MainEpoch.processCode (textContent : String) (loc : JsLocale) : ElemResult :=
  if textContent.isEmpty then .unchanged
  else
    match readingViewTimestampMatch textContent.data with
    | none => .unchanged
    | some ds =>
      match parseIntDigits ds with
      | none => .unchanged
      | some n =>
        if msInRange ((n : Int) * 1000) then
          .replaced []
            [mkRelTime ["discord-relative-time"]
              [("datetime", toISOStringOfMs ((n : Int) * 1000)),
               ("title", localeStringOrFallback loc ((n : Int) * 1000) MainEpoch.titleFormat)]]
        else .thrown false

/-- part_000 `processTimestampsInReadingView`, per `<code>` element.
On a valid instant the code first adds the class and clears `innerHTML`,
and only then calls `formatAbsoluteDateTime` and the `title` locale
formatting — both without `try`/`catch`, so a formatting exception is
raised after the content was already wiped. -/
def PartRFC.processCode (textContent : String) (loc : JsLocale) : ElemResult :=
  if textContent.isEmpty then .unchanged
  else
    match fullMatchRfcPart textContent.data with
    | none => .unchanged
    | some (cap, isDateOnly) =>
      match PartRFC.resolve cap isDateOnly with
      | none => .unchanged
      | some ms =>
        match PartRFC.formatAbsoluteDateTime loc ms isDateOnly with
        | .error _ => .thrown true
        | .ok absText =>
          match loc.fmtString ms (PartRFC.titleOptions isDateOnly) with
          | .error _ => .thrown true
          | .ok title =>
            .replaced ["rfc3339-relative-time-styled-codeblock"]
              [.elem "span" [] [] [.text absText],
               .text " (",
               mkRelTime []
                 [("datetime", toISOStringOfMs ms), ("format", "relative"),
                  ("threshold", "P100Y"), ("title", title)],
               .text ")"]

/-! ## Structural lemmas about the matchers -/

/-- A chomp function splits its input into the matched prefix and the
rest. -/
def AppendInv (p : Chomp) : Prop :=
  ∀ s m r, p s = some (m, r) → s = m ++ r

lemma pChar_appendInv (p : Char → Bool) : AppendInv (pChar p) := by
  intro s m r h
  cases s with
  | nil => simp [pChar] at h
  | cons c cs =>
    simp only [pChar] at h
    split at h
    · cases h; rfl
    · cases h

lemma pLit_appendInv (c : Char) : AppendInv (pLit c) := pChar_appendInv _

lemma pseq_appendInv {p q : Chomp} (hp : AppendInv p) (hq : AppendInv q) :
    AppendInv (pseq p q) := by
  intro s m r h
  simp only [pseq] at h
  split at h
  · rename_i m1 r1 hps
    split at h
    · rename_i m2 r2 hqs
      simp only [Option.some.injEq, Prod.mk.injEq] at h
      obtain ⟨hm, hr⟩ := h
      subst hm
      subst hr
      rw [hp s m1 r1 hps, hq r1 m2 r2 hqs, List.append_assoc]
    · cases h
  · cases h

lemma palt_appendInv {p q : Chomp} (hp : AppendInv p) (hq : AppendInv q) :
    AppendInv (palt p q) := by
  intro s m r h
  simp only [palt] at h
  split at h
  · rename_i x hps
    cases h
    exact hp s m r hps
  · rename_i hps
    exact hq s m r h

lemma pDigits_appendInv (n : Nat) : AppendInv (pDigits n) := by
  induction n with
  | zero => intro s m r h; simp only [pDigits] at h; cases h; rfl
  | succ k ih => exact pseq_appendInv (pChar_appendInv _) ih

lemma spanDigits_append (s : List Char) : s = (spanDigits s).1 ++ (spanDigits s).2 := by
  induction s with
  | nil => rfl
  | cons c cs ih =>
    simp only [spanDigits]
    split
    · simpa using ih
    · simp

lemma pDigits1_appendInv : AppendInv pDigits1 := by
  intro s m r h
  simp only [pDigits1] at h
  split at h
  · cases h
  · injection h with h2
    have h3 := spanDigits_append s
    rw [h2] at h3
    exact h3

lemma pZone_appendInv : AppendInv pZone :=
  palt_appendInv (pLit_appendInv _)
    (pseq_appendInv (pChar_appendInv _)
      (pseq_appendInv (pDigits_appendInv _)
        (pseq_appendInv (pLit_appendInv _) (pDigits_appendInv _))))

lemma pFrac_appendInv : AppendInv pFrac :=
  pseq_appendInv (pLit_appendInv _) pDigits1_appendInv

lemma pSecFracZone_appendInv : AppendInv pSecFracZone :=
  palt_appendInv
    (pseq_appendInv (pLit_appendInv _)
      (pseq_appendInv (pDigits_appendInv _)
        (palt_appendInv (pseq_appendInv pFrac_appendInv pZone_appendInv) pZone_appendInv)))
    pZone_appendInv

lemma pDate_appendInv : AppendInv pDate :=
  pseq_appendInv (pDigits_appendInv _)
    (pseq_appendInv (pLit_appendInv _)
      (pseq_appendInv (pDigits_appendInv _)
        (pseq_appendInv (pLit_appendInv _) (pDigits_appendInv _))))

lemma pTimeZonePart_appendInv : AppendInv pTimeZonePart :=
  pseq_appendInv (pLit_appendInv _)
    (pseq_appendInv (pDigits_appendInv _)
      (pseq_appendInv (pLit_appendInv _)
        (pseq_appendInv (pDigits_appendInv _) pSecFracZone_appendInv)))

lemma pTimeMain_appendInv : AppendInv pTimeMain :=
  pseq_appendInv (pLit_appendInv _)
    (pseq_appendInv (pDigits_appendInv _)
      (pseq_appendInv (pLit_appendInv _)
        (pseq_appendInv (pDigits_appendInv _)
          (pseq_appendInv (pLit_appendInv _)
            (pseq_appendInv (pDigits_appendInv _)
              (palt_appendInv (pseq_appendInv pFrac_appendInv pZone_appendInv)
                pZone_appendInv))))))

/-- Shape of a part_000 editor-token match: the input is the opening
backtick, the captured date/date-time text, the closing backtick, then
the rest.  In particular the full match has length `cap.length + 2`
(delimiters included) and starts and ends with a backtick. -/
lemma matchRfcToken_shape {s : List Char} {cap : String} {d : Bool} {rest : List Char}
    (h : matchRfcToken s = some ((cap, d), rest)) :
    s = backtickChar :: (cap.data ++ backtickChar :: rest) := by
  cases s with
  | nil => simp [matchRfcToken] at h
  | cons c s1 =>
    simp only [matchRfcToken] at h
    split at h
    · rename_i hc
      subst hc
      split at h
      · rename_i dm s2 hd
        have hs1 : s1 = dm ++ s2 := pDate_appendInv s1 dm s2 hd
        split at h
        · rename_i tm s3 ht
          have hs2 : s2 = tm ++ s3 := pTimeZonePart_appendInv s2 tm s3 ht
          split at h
          · rename_i c2 s4
            split at h
            · rename_i hc2
              subst hc2
              cases h
              simp [hs1, hs2]
            · cases h
          · cases h
        · rename_i ht
          split at h
          · rename_i c2 s4
            split at h
            · rename_i hc2
              subst hc2
              cases h
              simp [hs1]
            · cases h
          · cases h
      · cases h
    · cases h

/-- Shape of a main.ts RFC editor-token match. -/
lemma matchMainRfcToken_shape {s : List Char} {cap : String} {rest : List Char}
    (h : matchMainRfcToken s = some (cap, rest)) :
    s = backtickChar :: (cap.data ++ backtickChar :: rest) := by
  cases s with
  | nil => simp [matchMainRfcToken] at h
  | cons c s1 =>
    simp only [matchMainRfcToken] at h
    split at h
    · rename_i hc
      subst hc
      split at h
      · rename_i m s2 hd
        have hs1 : s1 = m ++ s2 :=
          pseq_appendInv pDate_appendInv pTimeMain_appendInv s1 m s2 hd
        split at h
        · rename_i c2 s3
          split at h
          · rename_i hc2
            subst hc2
            cases h
            simp [hs1]
          · cases h
        · cases h
      · cases h
    · cases h

/-- Shape of the inner epoch tag `<t:digits(:flag)?>`. -/
lemma matchEpochInner_shape {s : List Char} {tag ds rest : List Char}
    (h : matchEpochInner s = some ((tag, ds), rest)) :
    s = tag ++ rest := by
  simp only [matchEpochInner] at h
  split at h
  · rename_i s1
    have hspan := spanDigits_append s1
    cases hsd : spanDigits s1 with
    | mk dsp drest =>
      rw [hsd] at h hspan
      simp only at h hspan
      split at h
      · cases h
      · split at h
        · split at h
          · cases h
            simp [hspan]
          · cases h
        · cases h
          simp [hspan]
        · cases h
  · cases h

/-- Shape of a main.ts epoch editor-token match: backtick, tag,
backtick, rest. -/
lemma matchEpochToken_shape {s : List Char} {tag ds rest : List Char}
    (h : matchEpochToken s = some ((tag, ds), rest)) :
    s = backtickChar :: (tag ++ backtickChar :: rest) := by
  cases s with
  | nil => simp [matchEpochToken] at h
  | cons c s1 =>
    simp only [matchEpochToken] at h
    split at h
    · rename_i hc
      subst hc
      split at h
      · rename_i d s2 hd
        obtain ⟨t, dd⟩ := d
        have hs1 : s1 = t ++ s2 := matchEpochInner_shape hd
        split at h
        · rename_i c2 s3
          split at h
          · rename_i hc2
            subst hc2
            cases h
            simp [hs1]
          · cases h
        · cases h
      · cases h
    · cases h

/-! ## Scan lemmas -/

/-- A token matcher consumes a nonempty prefix: on success the rest is a
proper suffix at a definite position. -/
def TokShape {α : Type} (tok : List Char → Option (α × List Char)) : Prop :=
  ∀ s a rest, tok s = some (a, rest) → ∃ k, 0 < k ∧ k ≤ s.length ∧ rest = s.drop k

lemma tokShape_of_pre {α : Type} {tok : List Char → Option (α × List Char)}
    (h : ∀ s a rest, tok s = some (a, rest) → ∃ pre, pre ≠ [] ∧ s = pre ++ rest) :
    TokShape tok := by
  intro s a rest hs
  obtain ⟨pre, hne, happ⟩ := h s a rest hs
  refine ⟨pre.length, ?_, ?_, ?_⟩
  · cases pre with
    | nil => exact absurd rfl hne
    | cons x xs => simp
  · rw [happ]; simp
  · rw [happ, List.drop_left]

lemma matchRfcToken_tokShape : TokShape matchRfcToken := by
  apply tokShape_of_pre
  rintro s ⟨cap, d⟩ rest hs
  refine ⟨backtickChar :: cap.data ++ [backtickChar], by simp, ?_⟩
  rw [matchRfcToken_shape hs]
  simp

lemma matchMainRfcToken_tokShape : TokShape matchMainRfcToken := by
  apply tokShape_of_pre
  intro s cap rest hs
  refine ⟨backtickChar :: cap.data ++ [backtickChar], by simp, ?_⟩
  rw [matchMainRfcToken_shape hs]
  simp

lemma matchEpochToken_tokShape : TokShape matchEpochToken := by
  apply tokShape_of_pre
  rintro s ⟨tag, ds⟩ rest hs
  refine ⟨backtickChar :: tag ++ [backtickChar], by simp, ?_⟩
  rw [matchEpochToken_shape hs]
  simp

/-- Every match found by the scan lies inside the scanned region, starts
at or after the scan origin, and is nonempty. -/
lemma scanAux_mem {α : Type} {tok : List Char → Option (α × List Char)}
    (ht : TokShape tok) :
    ∀ (fuel : Nat) (s : List Char) (i : Nat) (m : Nat × Nat × α),
      m ∈ scanAux tok fuel s i →
        i ≤ m.1 ∧ 1 ≤ m.2.1 ∧ m.1 + m.2.1 ≤ i + s.length := by
  intro fuel
  induction fuel with
  | zero => intro s i m hm; simp [scanAux] at hm
  | succ n ih =>
    intro s i m hm
    cases s with
    | nil => simp [scanAux] at hm
    | cons c cs =>
      cases htok : tok (c :: cs) with
      | none =>
        simp only [scanAux, htok] at hm
        obtain ⟨h1, h2, h3⟩ := ih cs (i + 1) m hm
        refine ⟨by omega, h2, ?_⟩
        simp only [List.length_cons]
        omega
      | some x =>
        obtain ⟨a, rest⟩ := x
        simp only [scanAux, htok] at hm
        obtain ⟨k, hk0, hkle, hrest⟩ := ht (c :: cs) a rest htok
        have hlen : (c :: cs).length - rest.length = k := by
          rw [hrest, List.length_drop]
          omega
        rcases List.mem_cons.mp hm with rfl | hm'
        · simp only
          omega
        · obtain ⟨h1, h2, h3⟩ := ih rest (i + ((c :: cs).length - rest.length)) m hm'
          have hrl : rest.length = (c :: cs).length - k := by
            rw [hrest, List.length_drop]
          refine ⟨by omega, h2, by omega⟩

/-- The scan produces matches in strictly left-to-right, non-overlapping
order: each match ends at or before the start of the next. -/
lemma scanAux_sorted {α : Type} {tok : List Char → Option (α × List Char)}
    (ht : TokShape tok) :
    ∀ (fuel : Nat) (s : List Char) (i : Nat),
      (scanAux tok fuel s i).Pairwise (fun a b => a.1 + a.2.1 ≤ b.1) := by
  intro fuel
  induction fuel with
  | zero => intro s i; simp [scanAux]
  | succ n ih =>
    intro s i
    cases s with
    | nil => simp [scanAux]
    | cons c cs =>
      cases htok : tok (c :: cs) with
      | none => simp only [scanAux, htok]; exact ih cs (i + 1)
      | some x =>
        obtain ⟨a, rest⟩ := x
        simp only [scanAux, htok]
        refine List.Pairwise.cons ?_ (ih rest _)
        intro b hb
        exact (scanAux_mem ht n rest _ b hb).1

/-- Every match reported by the scan is the token matcher's output at
that very index. -/
lemma scanAux_inv {α : Type} {tok : List Char → Option (α × List Char)}
    (ht : TokShape tok) :
    ∀ (fuel : Nat) (s : List Char) (i : Nat) (m : Nat × Nat × α),
      m ∈ scanAux tok fuel s i →
        ∃ j rest, m.1 = i + j ∧ tok (s.drop j) = some (m.2.2, rest) ∧
          m.2.1 = (s.drop j).length - rest.length := by
  intro fuel
  induction fuel with
  | zero => intro s i m hm; simp [scanAux] at hm
  | succ n ih =>
    intro s i m hm
    cases s with
    | nil => simp [scanAux] at hm
    | cons c cs =>
      cases htok : tok (c :: cs) with
      | none =>
        simp only [scanAux, htok] at hm
        obtain ⟨j, rest, h1, h2, h3⟩ := ih cs (i + 1) m hm
        exact ⟨j + 1, rest, by omega, by simpa using h2, by simpa using h3⟩
      | some x =>
        obtain ⟨a, rest⟩ := x
        simp only [scanAux, htok] at hm
        obtain ⟨k, hk0, hkle, hrest⟩ := ht (c :: cs) a rest htok
        have hlen : (c :: cs).length - rest.length = k := by
          rw [hrest, List.length_drop]
          omega
        rcases List.mem_cons.mp hm with rfl | hm'
        · exact ⟨0, rest, by omega, by simpa using htok, by simp⟩
        · obtain ⟨j, rest2, h1, h2, h3⟩ := ih rest (i + ((c :: cs).length - rest.length)) m hm'
          refine ⟨k + j, rest2, by omega, ?_, ?_⟩
          · rw [← List.drop_drop j k, ← hrest]
            exact h2
          · rw [← List.drop_drop j k, ← hrest]
            exact h3

/-- Matches of a slice, seen through `tokenMatches`. -/
lemma tokenMatches_mem {α : Type} {tok : List Char → Option (α × List Char)}
    (ht : TokShape tok) {s : List Char} {m : Nat × Nat × α}
    (hm : m ∈ tokenMatches tok s) :
    1 ≤ m.2.1 ∧ m.1 + m.2.1 ≤ s.length := by
  obtain ⟨h1, h2, h3⟩ := scanAux_mem ht s.length s 0 m hm
  exact ⟨h2, by omega⟩

lemma tokenMatches_inv {α : Type} {tok : List Char → Option (α × List Char)}
    (ht : TokShape tok) {s : List Char} {m : Nat × Nat × α}
    (hm : m ∈ tokenMatches tok s) :
    ∃ rest, tok (s.drop m.1) = some (m.2.2, rest) ∧
      m.2.1 = (s.drop m.1).length - rest.length := by
  obtain ⟨j, rest, h1, h2, h3⟩ := scanAux_inv ht s.length s 0 m hm
  have hj : j = m.1 := by omega
  subst hj
  exact ⟨rest, h2, h3⟩

/-! ## Builder lemmas -/

/-- Inversion for a single visible range: every emitted instruction comes
from a scanned match that passed the selection and validity guards, and
spans exactly that match in absolute coordinates. -/
lemma buildRangeDecos_mem {α W : Type} {tok : List Char → Option (α × List Char)}
    {checkSel : Bool} {valid : α → Bool} {mkW : α → W}
    {doc : List Char} {sel : List SelRange} {r : VRange} {ins : Instr W}
    (h : ins ∈ buildRangeDecos tok checkSel valid mkW doc sel r) :
    ∃ m ∈ tokenMatches tok (sliceDoc doc r),
      ins.startPos = r.vFrom + m.1 ∧ ins.endPos = r.vFrom + m.1 + m.2.1 ∧
      ins.widget = mkW m.2.2 ∧
      (checkSel && cursorIsInside sel (r.vFrom + m.1) (r.vFrom + m.1 + m.2.1)) = false ∧
      valid m.2.2 = true := by
  simp only [buildRangeDecos, List.mem_filterMap] at h
  obtain ⟨m, hm, hf⟩ := h
  refine ⟨m, hm, ?_⟩
  split at hf
  · cases hf
  · rename_i hsel
    split at hf
    · rename_i hvalid
      cases hf
      exact ⟨rfl, rfl, rfl, by simpa using hsel, hvalid⟩
    · cases hf

/-- Inversion over all visible ranges. -/
lemma buildDecos_mem {α W : Type} {tok : List Char → Option (α × List Char)}
    {checkSel : Bool} {valid : α → Bool} {mkW : α → W}
    {doc : List Char} {sel : List SelRange} {ins : Instr W} :
    ∀ {ranges : List VRange},
      ins ∈ buildDecos tok checkSel valid mkW doc ranges sel →
      ∃ r ∈ ranges, ins ∈ buildRangeDecos tok checkSel valid mkW doc sel r := by
  intro ranges h
  induction ranges with
  | nil => simp [buildDecos] at h
  | cons a rs ih =>
    simp only [buildDecos, List.mem_append] at h
    rcases h with h | h
    · exact ⟨a, by simp, h⟩
    · obtain ⟨r, hr, hins⟩ := ih h
      exact ⟨r, by simp [hr], hins⟩

/-- The absolute start offset of every emitted instruction lies inside
its visible range. -/
lemma buildRangeDecos_span {α W : Type} {tok : List Char → Option (α × List Char)}
    (ht : TokShape tok)
    {checkSel : Bool} {valid : α → Bool} {mkW : α → W}
    {doc : List Char} {sel : List SelRange} {r : VRange} {ins : Instr W}
    (h : ins ∈ buildRangeDecos tok checkSel valid mkW doc sel r) :
    r.vFrom ≤ ins.startPos ∧ ins.startPos < r.vTo := by
  obtain ⟨m, hm, h1, _, _, _, _⟩ := buildRangeDecos_mem h
  obtain ⟨hl, hb⟩ := tokenMatches_mem ht hm
  have hsl : (sliceDoc doc r).length ≤ r.vTo - r.vFrom := by
    simp only [sliceDoc, List.length_take]
    omega
  constructor
  · omega
  · omega

/-- A `filterMap` over a list whose key function is strictly increasing
contains exactly one occurrence of the image of a surviving element. -/
lemma count_filterMap_eq_one {α β : Type} [DecidableEq β]
    (f : α → Option β) (kf : α → Nat) (key : β → Nat) (l : List α)
    (hk : ∀ a b, a ∈ l → f a = some b → key b = kf a)
    (hs : l.Pairwise (fun a b => kf a < kf b))
    (m : α) (t : β) (hm : m ∈ l) (hf : f m = some t) :
    (l.filterMap f).count t = 1 := by
  induction l with
  | nil => cases hm
  | cons a l ih =>
    rw [List.pairwise_cons] at hs
    obtain ⟨ha, hp⟩ := hs
    have hk' : ∀ a b, a ∈ l → f a = some b → key b = kf a := by
      intro x y hx hy
      exact hk x y (List.mem_cons_of_mem a hx) hy
    rcases List.mem_cons.mp hm with rfl | hm'
    · rw [List.filterMap_cons_some hf, List.count_cons_self]
      have hnot : t ∉ l.filterMap f := by
        intro hmem
        obtain ⟨b, hb, hfb⟩ := List.mem_filterMap.mp hmem
        have h1 : key t = kf b := hk' b t hb hfb
        have h2 : key t = kf m := hk m t (List.mem_cons_self m l) hf
        have h3 := ha b hb
        omega
      rw [List.count_eq_zero.mpr hnot]
    · cases hfa : f a with
      | none => rw [List.filterMap_cons_none hfa]; exact ih hk' hp hm'
      | some b =>
        rw [List.filterMap_cons_some hfa]
        have hbt : t ≠ b := by
          intro hEq
          subst hEq
          have h1 : key t = kf a := hk a t (List.mem_cons_self a l) hfa
          have h2 : key t = kf m := hk m t (List.mem_cons_of_mem a hm') hf
          have h3 := ha m hm'
          omega
        rw [List.count_cons_of_ne hbt]
        exact ih hk' hp hm'

/-- The scanned matches of a slice have strictly increasing start
indices. -/
lemma tokenMatches_sorted_lt {α : Type} {tok : List Char → Option (α × List Char)}
    (ht : TokShape tok) (s : List Char) :
    (tokenMatches tok s).Pairwise (fun a b => a.1 < b.1) := by
  refine (scanAux_sorted ht s.length s 0).imp_of_mem ?_
  intro a b hab hbb hle
  have := (scanAux_mem ht s.length s 0 a hab).2.1
  omega

/-- Exactly-one within a single visible range: a scanned match that
passes both guards contributes exactly one instruction, whose span is
the match's absolute extent. -/
lemma buildRangeDecos_count {α W : Type} [DecidableEq W]
    {tok : List Char → Option (α × List Char)} (ht : TokShape tok)
    {checkSel : Bool} {valid : α → Bool} {mkW : α → W}
    {doc : List Char} {sel : List SelRange} {r : VRange}
    {m : Nat × Nat × α} (hm : m ∈ tokenMatches tok (sliceDoc doc r))
    (hsel : (checkSel && cursorIsInside sel (r.vFrom + m.1) (r.vFrom + m.1 + m.2.1)) = false)
    (hvalid : valid m.2.2 = true) :
    (buildRangeDecos tok checkSel valid mkW doc sel r).count
      ⟨r.vFrom + m.1, r.vFrom + m.1 + m.2.1, mkW m.2.2⟩ = 1 := by
  unfold buildRangeDecos
  refine count_filterMap_eq_one _ (fun a => r.vFrom + a.1) Instr.startPos _ ?_
    ?_ m _ hm ?_
  · intro a b _ hfa
    simp only at hfa
    split at hfa
    · cases hfa
    · split at hfa
      · cases hfa; rfl
      · cases hfa
  · refine (tokenMatches_sorted_lt ht _).imp ?_
    intro a b h
    dsimp only
    omega
  · simp [hsel, hvalid]

/-- Zero contributions from a range whose interval does not contain the
target start offset. -/
lemma buildRangeDecos_count_zero {α W : Type} [DecidableEq W]
    {tok : List Char → Option (α × List Char)} (ht : TokShape tok)
    {checkSel : Bool} {valid : α → Bool} {mkW : α → W}
    {doc : List Char} {sel : List SelRange} {r : VRange} {t : Instr W}
    (hout : t.startPos < r.vFrom ∨ r.vTo ≤ t.startPos) :
    (buildRangeDecos tok checkSel valid mkW doc sel r).count t = 0 := by
  rw [List.count_eq_zero]
  intro hmem
  obtain ⟨h1, h2⟩ := buildRangeDecos_span ht hmem
  omega

/-- Exactly-one across all visible ranges, provided the ranges are
disjoint and ordered (as CodeMirror's `visibleRanges` are). -/
lemma buildDecos_count {α W : Type} [DecidableEq W]
    {tok : List Char → Option (α × List Char)} (ht : TokShape tok)
    {checkSel : Bool} {valid : α → Bool} {mkW : α → W}
    {doc : List Char} {sel : List SelRange}
    {ranges : List VRange} (hsort : ranges.Pairwise (fun a b => a.vTo ≤ b.vFrom))
    {r : VRange} (hr : r ∈ ranges)
    {m : Nat × Nat × α} (hm : m ∈ tokenMatches tok (sliceDoc doc r))
    (hsel : (checkSel && cursorIsInside sel (r.vFrom + m.1) (r.vFrom + m.1 + m.2.1)) = false)
    (hvalid : valid m.2.2 = true) :
    (buildDecos tok checkSel valid mkW doc ranges sel).count
      ⟨r.vFrom + m.1, r.vFrom + m.1 + m.2.1, mkW m.2.2⟩ = 1 := by
  have hspan : r.vFrom ≤ r.vFrom + m.1 ∧ r.vFrom + m.1 < r.vTo := by
    obtain ⟨hl, hb⟩ := tokenMatches_mem ht hm
    have hsl : (sliceDoc doc r).length ≤ r.vTo - r.vFrom := by
      simp only [sliceDoc, List.length_take]
      omega
    omega
  induction ranges with
  | nil => cases hr
  | cons a rs ih =>
    rw [List.pairwise_cons] at hsort
    obtain ⟨ha, hp⟩ := hsort
    rcases List.mem_cons.mp hr with rfl | hr'
    · simp only [buildDecos, List.count_append]
      rw [buildRangeDecos_count ht hm hsel hvalid]
      have hz : (buildDecos tok checkSel valid mkW doc rs sel).count
          ⟨r.vFrom + m.1, r.vFrom + m.1 + m.2.1, mkW m.2.2⟩ = 0 := by
        rw [List.count_eq_zero]
        intro hmem
        obtain ⟨r2, hr2, hins⟩ := buildDecos_mem hmem
        obtain ⟨h1, h2⟩ := buildRangeDecos_span ht hins
        have := ha r2 hr2
        simp only at h1 h2
        omega
      omega
    · simp only [buildDecos, List.count_append]
      rw [ih hp hr']
      have hz : (buildRangeDecos tok checkSel valid mkW doc sel a).count
          ⟨r.vFrom + m.1, r.vFrom + m.1 + m.2.1, mkW m.2.2⟩ = 0 := by
        refine buildRangeDecos_count_zero ht ?_
        have := ha r hr'
        simp only
        omega
      omega

/-- In a builder that tests the selection, every emitted instruction's
span fails the closed-interval overlap test. -/
lemma buildDecos_sel_false {α W : Type} {tok : List Char → Option (α × List Char)}
    {valid : α → Bool} {mkW : α → W}
    {doc : List Char} {ranges : List VRange} {sel : List SelRange} {ins : Instr W}
    (h : ins ∈ buildDecos tok true valid mkW doc ranges sel) :
    cursorIsInside sel ins.startPos ins.endPos = false := by
  obtain ⟨r, _, hins⟩ := buildDecos_mem h
  obtain ⟨m, _, h1, h2, _, hsel, _⟩ := buildRangeDecos_mem hins
  rw [h1, h2]
  simpa using hsel

/-- Every emitted instruction's widget comes from match data that passed
the builder's validity guard. -/
lemma buildDecos_valid {α W : Type} {tok : List Char → Option (α × List Char)}
    {checkSel : Bool} {valid : α → Bool} {mkW : α → W}
    {doc : List Char} {ranges : List VRange} {sel : List SelRange} {ins : Instr W}
    (h : ins ∈ buildDecos tok checkSel valid mkW doc ranges sel) :
    ∃ a, valid a = true ∧ ins.widget = mkW a := by
  obtain ⟨r, _, hins⟩ := buildDecos_mem h
  obtain ⟨m, _, _, _, hw, _, hvalid⟩ := buildRangeDecos_mem hins
  exact ⟨m.2.2, hvalid, hw⟩

/-- The stateful builders compute the same instruction list as the pure
ones, for any incoming `lastIndex`. -/
lemma buildDecosFrom_fst {α W : Type} {tok : List Char → Option (α × List Char)}
    {checkSel : Bool} {valid : α → Bool} {mkW : α → W}
    {doc : List Char} {sel : List SelRange} :
    ∀ (ranges : List VRange) (li : Nat),
      (buildDecosFrom tok checkSel valid mkW doc sel li ranges).1
        = buildDecos tok checkSel valid mkW doc ranges sel := by
  intro ranges
  induction ranges with
  | nil => intro li; rfl
  | cons r rs ih =>
    intro li
    simp only [buildDecosFrom, buildDecos, buildRangeDecosFrom, ih]
    rfl

/-! ## Claim C1 -/

/-- C1 counterexample: in the epoch-tag editor pipeline a selection
sub-range overlapping the token (closed-interval test) does **not**
suppress the decoration — `buildTimestampDecorations` performs no
selection check, so the claim is false as stated for that pipeline.
Here the cursor `[1,1]` lies strictly inside the token span `[0,7]`, the
overlap test fires, and the instruction is emitted anyway. -/
theorem c1_epoch_pipeline_ignores_selection :
    MainEpoch.buildTimestampDecorations ("`<t:0>`".data) [⟨0, 7⟩] [⟨1, 1⟩]
      = [⟨0, 7, ⟨"<t:0>", 0⟩⟩]
    ∧ cursorIsInside [⟨1, 1⟩] 0 7 = true := by
  constructor
  · rfl
  · rfl

/-- C1 (amended): in the two RFC-3339 editor pipelines (part_000's
`buildDecorations` and main.ts's `buildRFC3339TimestampDecorations`),
any candidate token whose span passes the closed-interval overlap test
`selRange.from <= endPos && selRange.to >= startPos` against some
selection sub-range is suppressed: every emitted instruction's span
fails the test.  The epoch-tag pipeline performs no such check. -/
theorem c1_rfc_selection_suppression :
    (∀ (doc : List Char) (ranges : List VRange) (sel : List SelRange)
        (ins : Instr PartRFC.RFC3339Widget),
        ins ∈ PartRFC.buildDecorations doc ranges sel →
        cursorIsInside sel ins.startPos ins.endPos = false) ∧
    (∀ (doc : List Char) (ranges : List VRange) (sel : List SelRange)
        (ins : Instr MainRFC.RFC3339TimestampWidget),
        ins ∈ MainRFC.buildRFC3339TimestampDecorations doc ranges sel →
        cursorIsInside sel ins.startPos ins.endPos = false) := by
  constructor
  · intro doc ranges sel ins h
    exact buildDecos_sel_false h
  · intro doc ranges sel ins h
    exact buildDecos_sel_false h

/-- C1 witness: a concrete run of the part_000 builder emits this
instruction, and the theorem yields that its span does not overlap the
selection. -/
theorem c1_rfc_selection_suppression_witness :
    (⟨0, 12, ⟨"2023-01-01", true⟩⟩ : Instr PartRFC.RFC3339Widget)
        ∈ PartRFC.buildDecorations ("`2023-01-01`".data) [⟨0, 12⟩] [⟨50, 50⟩]
    ∧ cursorIsInside [⟨50, 50⟩] 0 12 = false :=
  ⟨by decide,
   c1_rfc_selection_suppression.1 ("`2023-01-01`".data) [⟨0, 12⟩] [⟨50, 50⟩]
     ⟨0, 12, ⟨"2023-01-01", true⟩⟩ (by decide)⟩

/-! ## Claim C2 -/

/-- C2 counterexample: in the epoch-tag editor pipeline the only
validity guard is `!isNaN(parseInt(...))`, which holds for every digit
string; an epoch-seconds count whose millisecond value exceeds the
representable instant range still produces a decoration instruction, so
the claim is false as stated for that pipeline. -/
theorem c2_epoch_pipeline_emits_invalid_instant :
    MainEpoch.buildTimestampDecorations ("`<t:9999999999999999>`".data) [⟨0, 22⟩] []
      = [⟨0, 22, ⟨"<t:9999999999999999>", 9999999999999999⟩⟩]
    ∧ msInRange ((9999999999999999 : Int) * 1000) = false := by
  constructor
  · rfl
  · rfl

/-- C2 (amended): in the two RFC-3339 editor pipelines every emitted
instruction's widget carries fields that resolve to a valid instant
(matches that fail to resolve are dropped), scanning continues past a
dropped token (shown concretely: `2023-13-45` is dropped while the later
`2023-01-01` in the same slice is still decorated), and the computation
is total.  The epoch-tag editor pipeline checks only that `parseInt`
yields a number, so out-of-range epochs still emit. -/
theorem c2_rfc_invalid_dropped :
    (∀ (doc : List Char) (ranges : List VRange) (sel : List SelRange)
        (ins : Instr PartRFC.RFC3339Widget),
        ins ∈ PartRFC.buildDecorations doc ranges sel →
        (PartRFC.resolve ins.widget.matchedDateString ins.widget.isDateOnly).isSome = true) ∧
    (∀ (doc : List Char) (ranges : List VRange) (sel : List SelRange)
        (ins : Instr MainRFC.RFC3339TimestampWidget),
        ins ∈ MainRFC.buildRFC3339TimestampDecorations doc ranges sel →
        (MainRFC.resolve ins.widget.rfc3339String).isSome = true) ∧
    PartRFC.buildDecorations ("`2023-13-45` `2023-01-01`".data) [⟨0, 25⟩] []
      = [⟨13, 25, ⟨"2023-01-01", true⟩⟩] := by
  refine ⟨?_, ?_, by rfl⟩
  · intro doc ranges sel ins h
    obtain ⟨a, hv, hw⟩ := buildDecos_valid h
    rw [hw]
    exact hv
  · intro doc ranges sel ins h
    obtain ⟨a, hv, hw⟩ := buildDecos_valid h
    rw [hw]
    exact hv

/-- C2 witness: the instruction emitted on a concrete document indeed
resolves to a valid instant. -/
theorem c2_rfc_invalid_dropped_witness :
    (⟨0, 12, ⟨"2023-01-01", true⟩⟩ : Instr PartRFC.RFC3339Widget)
        ∈ PartRFC.buildDecorations ("`2023-01-01`".data) [⟨0, 12⟩] []
    ∧ (PartRFC.resolve "2023-01-01" true).isSome = true :=
  ⟨by decide,
   c2_rfc_invalid_dropped.1 ("`2023-01-01`".data) [⟨0, 12⟩] []
     ⟨0, 12, ⟨"2023-01-01", true⟩⟩ (by decide)⟩

/-! ## Claim C6 -/

/-- C6: the decoration computation is deterministic and side-effect-free.
With the shared regex's `lastIndex` threaded explicitly, the produced
instruction list is independent of the incoming cursor value (it is
reset to 0 before each scan), a second call starting from the state left
by a first call yields the identical instruction list, and both agree
with the pure (stateless) builder — for both RFC editor builders. -/
theorem c6_idempotent_stateless :
    (∀ (li1 li2 : Nat) (doc : List Char) (ranges : List VRange) (sel : List SelRange),
        (PartRFC.buildDecorationsFrom li1 doc ranges sel).1
          = (PartRFC.buildDecorationsFrom li2 doc ranges sel).1) ∧
    (∀ (li : Nat) (doc : List Char) (ranges : List VRange) (sel : List SelRange),
        (PartRFC.buildDecorationsFrom
            (PartRFC.buildDecorationsFrom li doc ranges sel).2 doc ranges sel).1
          = (PartRFC.buildDecorationsFrom li doc ranges sel).1) ∧
    (∀ (li : Nat) (doc : List Char) (ranges : List VRange) (sel : List SelRange),
        (PartRFC.buildDecorationsFrom li doc ranges sel).1
          = PartRFC.buildDecorations doc ranges sel) ∧
    (∀ (li1 li2 : Nat) (doc : List Char) (ranges : List VRange) (sel : List SelRange),
        (MainRFC.buildRFC3339TimestampDecorationsFrom li1 doc ranges sel).1
          = (MainRFC.buildRFC3339TimestampDecorationsFrom li2 doc ranges sel).1) ∧
    (∀ (li : Nat) (doc : List Char) (ranges : List VRange) (sel : List SelRange),
        (MainRFC.buildRFC3339TimestampDecorationsFrom
            (MainRFC.buildRFC3339TimestampDecorationsFrom li doc ranges sel).2
              doc ranges sel).1
          = (MainRFC.buildRFC3339TimestampDecorationsFrom li doc ranges sel).1) ∧
    (∀ (li : Nat) (doc : List Char) (ranges : List VRange) (sel : List SelRange),
        (MainRFC.buildRFC3339TimestampDecorationsFrom li doc ranges sel).1
          = MainRFC.buildRFC3339TimestampDecorations doc ranges sel) := by
  refine ⟨?_, ?_, ?_, ?_, ?_, ?_⟩
  · intro li1 li2 doc ranges sel
    simp only [PartRFC.buildDecorationsFrom, buildDecosFrom_fst]
  · intro li doc ranges sel
    simp only [PartRFC.buildDecorationsFrom, buildDecosFrom_fst]
  · intro li doc ranges sel
    simp only [PartRFC.buildDecorationsFrom, PartRFC.buildDecorations, buildDecosFrom_fst]
  · intro li1 li2 doc ranges sel
    simp only [MainRFC.buildRFC3339TimestampDecorationsFrom, buildDecosFrom_fst]
  · intro li doc ranges sel
    simp only [MainRFC.buildRFC3339TimestampDecorationsFrom, buildDecosFrom_fst]
  · intro li doc ranges sel
    simp only [MainRFC.buildRFC3339TimestampDecorationsFrom,
      MainRFC.buildRFC3339TimestampDecorations, buildDecosFrom_fst]

/-! ## Claim C3 -/

/-- C3 counterexample: the claim asserts the acceptance behaviour of the
RFC-3339 matcher for *both* cited variants, but main.ts's
`rfc3339PatternSrc` requires a full `THH:MM:SS` time part: its matchers
reject a bare `` `YYYY-MM-DD` `` and a date-time with minutes but no
seconds. -/
theorem c3_main_matcher_rejects_dateonly :
    readingViewRfc3339Match ("2023-01-01".data) = none
    ∧ matchMainRfcToken ("`2023-01-01`".data) = none
    ∧ readingViewRfc3339Match ("2023-01-01T10:00Z".data) = none := by
  refine ⟨by rfl, by rfl, by rfl⟩

/-- C3 (amended): part_000's RFC-3339 matchers (editor and static-view)
accept a bare `YYYY-MM-DD` tagged date-only and `YYYY-MM-DDTHH:MM` with
optional `:SS`, optional fractional seconds, and a mandatory timezone
designator, tagged date-time; main.ts's RFC-3339 matchers instead
require the full time part with mandatory seconds (no date-only form,
no seconds-less form), fraction and timezone as before. -/
theorem c3_grammar :
    fullMatchRfcPart ("2023-01-01".data) = some ("2023-01-01", true)
    ∧ matchRfcToken ("`2023-01-01`".data) = some (("2023-01-01", true), [])
    ∧ fullMatchRfcPart ("2023-01-01T10:00Z".data) = some ("2023-01-01T10:00Z", false)
    ∧ fullMatchRfcPart ("2023-01-01T10:00:05Z".data) = some ("2023-01-01T10:00:05Z", false)
    ∧ fullMatchRfcPart ("2023-01-01T10:00:05.5+01:00".data)
        = some ("2023-01-01T10:00:05.5+01:00", false)
    ∧ fullMatchRfcPart ("2023-01-01T10:00".data) = none
    ∧ fullMatchRfcPart ("2023-01-01T10:00:05".data) = none
    ∧ readingViewRfc3339Match ("2023-01-01".data) = none
    ∧ readingViewRfc3339Match ("2023-01-01T10:00Z".data) = none
    ∧ readingViewRfc3339Match ("2023-01-01T10:00:00Z".data) = some "2023-01-01T10:00:00Z"
    ∧ readingViewRfc3339Match ("2023-01-01T10:00:00.25-05:00".data)
        = some "2023-01-01T10:00:00.25-05:00"
    ∧ matchMainRfcToken ("`2023-01-01T10:00:00Z`".data)
        = some ("2023-01-01T10:00:00Z", []) := by
  refine ⟨by rfl, by rfl, by rfl, by rfl, by rfl, by rfl, by rfl, by rfl, by rfl, by rfl,
    by rfl, by rfl⟩

/-! ## Claim C4 -/

/-- C4 (code bug): a date-only token `2023-01-01` does resolve to
midnight UTC on that calendar date (first two conjuncts), but the
absolute-time label for date-only tokens is **not** time-of-day free:
`formatAbsoluteDateTime` early-returns
`date.toLocaleDateString(undefined, options)` where `options` explicitly
contains `hour: 'numeric'` and `minute: '2-digit'` — explicit time
components that `toLocaleDateString` honours — so the rendered label
includes a time of day.  (The `YYYY-MM-DD` branch below that `return`,
matching the spec's wording, is unreachable.) -/
theorem c4_dateonly_midnight_but_label_has_time :
    PartRFC.resolve "2023-01-01" true = some 1672531200000
    ∧ toISOStringOfMs 1672531200000 = "2023-01-01T00:00:00.000Z"
    ∧ (1672531200000 : Int) % 86400000 = 0
    ∧ (∀ (loc : JsLocale) (ms : Int),
        PartRFC.formatAbsoluteDateTime loc ms true = loc.fmtDateString ms PartRFC.absOptions)
    ∧ PartRFC.absOptions.hour = some "numeric"
    ∧ PartRFC.absOptions.minute = some "2-digit" := by
  refine ⟨by rfl, by rfl, by rfl, ?_, by rfl, by rfl⟩
  intro loc ms
  rfl

/-! ## Claim C7 -/

/-- C7: for every match of the token grammar found in a visible range of
an RFC-3339 editor pipeline that does not overlap the selection and
resolves to a valid instant, exactly one decoration instruction is
produced; its span is `[vFrom + matchIndex, vFrom + matchIndex + len)`
in absolute buffer coordinates, where `len` is the full matched length
`capture.length + 2` — i.e. including both wrapping backtick delimiters,
as the raw matched text is the capture surrounded by backticks.  Holds
for part_000's and main.ts's RFC builders (visible ranges ordered and
disjoint, as CodeMirror supplies them). -/
theorem c7_exactly_one_exact_span :
    (∀ (doc : List Char) (ranges : List VRange) (sel : List SelRange)
        (r : VRange) (m : Nat × Nat × (String × Bool)),
        ranges.Pairwise (fun a b => a.vTo ≤ b.vFrom) →
        r ∈ ranges →
        m ∈ tokenMatches matchRfcToken (sliceDoc doc r) →
        cursorIsInside sel (r.vFrom + m.1) (r.vFrom + m.1 + m.2.1) = false →
        (PartRFC.resolve m.2.2.1 m.2.2.2).isSome = true →
        (PartRFC.buildDecorations doc ranges sel).count
            ⟨r.vFrom + m.1, r.vFrom + m.1 + m.2.1, ⟨m.2.2.1, m.2.2.2⟩⟩ = 1
          ∧ m.2.1 = m.2.2.1.length + 2
          ∧ ((sliceDoc doc r).drop m.1).take m.2.1
              = backtickChar :: (m.2.2.1.data ++ [backtickChar])) ∧
    (∀ (doc : List Char) (ranges : List VRange) (sel : List SelRange)
        (r : VRange) (m : Nat × Nat × String),
        ranges.Pairwise (fun a b => a.vTo ≤ b.vFrom) →
        r ∈ ranges →
        m ∈ tokenMatches matchMainRfcToken (sliceDoc doc r) →
        cursorIsInside sel (r.vFrom + m.1) (r.vFrom + m.1 + m.2.1) = false →
        (MainRFC.resolve m.2.2).isSome = true →
        (MainRFC.buildRFC3339TimestampDecorations doc ranges sel).count
            ⟨r.vFrom + m.1, r.vFrom + m.1 + m.2.1, ⟨m.2.2⟩⟩ = 1
          ∧ m.2.1 = m.2.2.length + 2
          ∧ ((sliceDoc doc r).drop m.1).take m.2.1
              = backtickChar :: (m.2.2.data ++ [backtickChar])) := by
  constructor
  · intro doc ranges sel r m hsort hr hm hsel hvalid
    obtain ⟨rest, hinv, hlen⟩ := tokenMatches_inv matchRfcToken_tokShape hm
    have hshape := @matchRfcToken_shape ((sliceDoc doc r).drop m.1) m.2.2.1 m.2.2.2 rest
      (by simpa using hinv)
    have hL : (List.drop m.1 (sliceDoc doc r)).length
        = m.2.2.1.data.length + rest.length + 2 := by
      rw [hshape]
      simp only [List.length_cons, List.length_append]
      omega
    have hsl : m.2.2.1.length = m.2.2.1.data.length := rfl
    have hlen2 : m.2.1 = m.2.2.1.length + 2 := by
      rw [hlen, hL, hsl]
      omega
    refine ⟨?_, hlen2, ?_⟩
    · have hsel' : (true && cursorIsInside sel (r.vFrom + m.1) (r.vFrom + m.1 + m.2.1))
          = false := by
        simp only [Bool.true_and]
        exact hsel
      exact @buildDecos_count (String × Bool) PartRFC.RFC3339Widget _ matchRfcToken
        matchRfcToken_tokShape true (fun d => (PartRFC.resolve d.1 d.2).isSome)
        (fun d => ⟨d.1, d.2⟩) doc sel ranges hsort r hr m hm hsel' hvalid
    · rw [hshape, hlen2]
      have hre : backtickChar :: (m.2.2.1.data ++ backtickChar :: rest)
          = (backtickChar :: (m.2.2.1.data ++ [backtickChar])) ++ rest := by
        simp
      rw [hre]
      have hl : m.2.2.1.length + 2
          = (backtickChar :: (m.2.2.1.data ++ [backtickChar])).length := by
        simp only [List.length_cons, List.length_append, List.length_nil, hsl]
      rw [hl, List.take_left]
  · intro doc ranges sel r m hsort hr hm hsel hvalid
    obtain ⟨rest, hinv, hlen⟩ := tokenMatches_inv matchMainRfcToken_tokShape hm
    have hshape := @matchMainRfcToken_shape ((sliceDoc doc r).drop m.1) m.2.2 rest
      (by simpa using hinv)
    have hL : (List.drop m.1 (sliceDoc doc r)).length
        = m.2.2.data.length + rest.length + 2 := by
      rw [hshape]
      simp only [List.length_cons, List.length_append]
      omega
    have hsl : m.2.2.length = m.2.2.data.length := rfl
    have hlen2 : m.2.1 = m.2.2.length + 2 := by
      rw [hlen, hL, hsl]
      omega
    refine ⟨?_, hlen2, ?_⟩
    · have hsel' : (true && cursorIsInside sel (r.vFrom + m.1) (r.vFrom + m.1 + m.2.1))
          = false := by
        simp only [Bool.true_and]
        exact hsel
      exact @buildDecos_count String MainRFC.RFC3339TimestampWidget _ matchMainRfcToken
        matchMainRfcToken_tokShape true (fun s => (MainRFC.resolve s).isSome)
        (fun s => ⟨s⟩) doc sel ranges hsort r hr m hm hsel' hvalid
    · rw [hshape, hlen2]
      have hre : backtickChar :: (m.2.2.data ++ backtickChar :: rest)
          = (backtickChar :: (m.2.2.data ++ [backtickChar])) ++ rest := by
        simp
      rw [hre]
      have hl : m.2.2.length + 2
          = (backtickChar :: (m.2.2.data ++ [backtickChar])).length := by
        simp only [List.length_cons, List.length_append, List.length_nil, hsl]
      rw [hl, List.take_left]

/-- C7 witness: on a concrete document the match `(0, 12, ("2023-01-01",
date-only))` yields exactly one instruction with span `[0, 12)` and its
raw text is the capture wrapped in backticks. -/
theorem c7_exactly_one_exact_span_witness :
    (PartRFC.buildDecorations ("`2023-01-01`".data) [⟨0, 12⟩] [⟨50, 50⟩]).count
        ⟨0, 12, ⟨"2023-01-01", true⟩⟩ = 1
    ∧ (12 : Nat) = "2023-01-01".length + 2
    ∧ ((sliceDoc ("`2023-01-01`".data) ⟨0, 12⟩).drop 0).take 12
        = backtickChar :: ("2023-01-01".data ++ [backtickChar]) :=
  c7_exactly_one_exact_span.1 ("`2023-01-01`".data) [⟨0, 12⟩] [⟨50, 50⟩]
    ⟨0, 12⟩ (0, 12, ("2023-01-01", true))
    (by decide) (by decide) (by decide) (by decide) (by decide)

/-! ## Claim C8 -/

/-- The greedy `\d+` stops exactly at the first non-digit. -/
lemma spanDigits_of_append {ds : List Char} {c : Char} {r : List Char}
    (hds : ds.all Char.isDigit = true) (hc : c.isDigit = false) :
    spanDigits (ds ++ c :: r) = (ds, c :: r) := by
  induction ds with
  | nil => simp [spanDigits, hc]
  | cons a as ih =>
    simp only [List.all_cons, Bool.and_eq_true] at hds
    simp [spanDigits, hds.1, ih hds.2]

/-- C8: for every epoch tag, `<t:N>` and `<t:N:FLAG>` (any legal FLAG)
capture the same digit group N (first conjunct); the widget's rendering
depends only on the parsed UNIX timestamp, never on the tag text or the
style flag (second conjunct); and `<t:0:R>` captures `0`, whose resolved
instant `0 * 1000` ms is exactly the Unix epoch,
`1970-01-01T00:00:00.000Z` (remaining conjuncts). -/
theorem c8_epoch_flag_ignored :
    (∀ (ds : List Char) (f : Char), ds ≠ [] → ds.all Char.isDigit = true →
        isEpochFlag f = true →
        matchEpochInner ('<' :: 't' :: ':' :: (ds ++ [':', f, '>'])) =
          some (('<' :: 't' :: ':' :: (ds ++ [':', f, '>']), ds), []) ∧
        matchEpochInner ('<' :: 't' :: ':' :: (ds ++ ['>'])) =
          some (('<' :: 't' :: ':' :: (ds ++ ['>']), ds), [])) ∧
    (∀ (t1 t2 : String) (n : Nat) (loc : JsLocale),
        MainEpoch.widgetToDOM ⟨t1, n⟩ loc = MainEpoch.widgetToDOM ⟨t2, n⟩ loc) ∧
    readingViewTimestampMatch ("<t:0:R>".data) = some ['0'] ∧
    ((digitsToNat ['0'] : Int) * 1000 = 0) ∧
    toISOStringOfMs 0 = "1970-01-01T00:00:00.000Z" := by
  refine ⟨?_, ?_, by rfl, by rfl, by rfl⟩
  · intro ds f hne hdig hflag
    have hempty : ds.isEmpty = false := by
      cases ds with
      | nil => exact absurd rfl hne
      | cons a as => rfl
    have hcol : (':' : Char).isDigit = false := by decide
    have hgt : ('>' : Char).isDigit = false := by decide
    constructor
    · simp only [matchEpochInner]
      rw [spanDigits_of_append hdig hcol]
      simp [hempty, hflag]
    · simp only [matchEpochInner]
      rw [spanDigits_of_append hdig hgt]
      simp [hempty]
  · intro t1 t2 n loc
    rfl

/-- C8 witness at `N = 1`, `FLAG = R`. -/
theorem c8_epoch_flag_ignored_witness :
    matchEpochInner ('<' :: 't' :: ':' :: (['1'] ++ [':', 'R', '>'])) =
        some (('<' :: 't' :: ':' :: (['1'] ++ [':', 'R', '>']), ['1']), []) ∧
    matchEpochInner ('<' :: 't' :: ':' :: (['1'] ++ ['>'])) =
        some (('<' :: 't' :: ':' :: (['1'] ++ ['>']), ['1']), []) :=
  c8_epoch_flag_ignored.1 ['1'] 'R' (by decide) (by decide) (by decide)

/-! ## Claim C5 -/

/-- C5 counterexample: part_000's `RFC3339Widget.toDOM` does not wrap
its locale-formatting calls in `try`/`catch`; with a host locale whose
`toLocaleString` throws, the exception propagates out of the widget
render (the claim says every widget rendering path recovers locally). -/
theorem c5_part000_widget_propagates :
    PartRFC.widgetToDOM ⟨"2023-01-01", true⟩
      ⟨fun _ _ => .error (), fun _ _ => .ok "Jan 1, 2023"⟩ = .error () := by
  rfl

/-- C5 (amended): the four main.ts render paths (RFC editor widget,
epoch editor widget, and both reading-view transforms) wrap the tooltip
locale call in `try`/`catch` and fall back to `date.toString()` — the
plain always-valid representation of the same instant — never
propagating the exception; part_000's `RFC3339Widget.toDOM` and
reading-view path have no such handler and the exception propagates
(see the counterexample). -/
theorem c5_maints_title_fallback :
    (∀ (w : MainRFC.RFC3339TimestampWidget) (loc : JsLocale) (ms : Int),
        MainRFC.resolve w.rfc3339String = some ms →
        loc.fmtString ms MainRFC.titleFormat = .error () →
        MainRFC.widgetToDOM w loc =
          .elem "span" ["rfc3339-relative-time-widget-wrapper"] []
            [.elem "span" ["rfc3339-relative-time-styled-codeblock"] []
              [mkRelTime []
                [("datetime", toISOStringOfMs ms), ("title", jsDateToString ms)]]]) ∧
    (∀ (w : MainEpoch.TimestampWidget) (loc : JsLocale),
        msInRange ((w.unixTimestamp : Int) * 1000) = true →
        loc.fmtString ((w.unixTimestamp : Int) * 1000) MainEpoch.titleFormat = .error () →
        MainEpoch.widgetToDOM w loc =
          .ok (.elem "span" ["discord-relative-time-widget-wrapper"] []
            [mkRelTime ["discord-relative-time"]
              [("datetime", toISOStringOfMs ((w.unixTimestamp : Int) * 1000)),
               ("title", jsDateToString ((w.unixTimestamp : Int) * 1000))]])) ∧
    (∀ (s : String) (loc : JsLocale) (cap : String) (ms : Int),
        s.isEmpty = false →
        readingViewRfc3339Match s.data = some cap →
        MainRFC.resolve cap = some ms →
        loc.fmtString ms MainRFC.titleFormat = .error () →
        MainRFC.processCode s loc =
          .replaced ["rfc3339-relative-time-styled-codeblock"]
            [mkRelTime []
              [("datetime", toISOStringOfMs ms), ("title", jsDateToString ms)]]) ∧
    (∀ (s : String) (loc : JsLocale) (ds : List Char),
        s.isEmpty = false →
        readingViewTimestampMatch s.data = some ds →
        ds ≠ [] → ds.all Char.isDigit = true →
        msInRange ((digitsToNat ds : Int) * 1000) = true →
        loc.fmtString ((digitsToNat ds : Int) * 1000) MainEpoch.titleFormat = .error () →
        MainEpoch.processCode s loc =
          .replaced []
            [mkRelTime ["discord-relative-time"]
              [("datetime", toISOStringOfMs ((digitsToNat ds : Int) * 1000)),
               ("title", jsDateToString ((digitsToNat ds : Int) * 1000))]]) := by
  refine ⟨?_, ?_, ?_, ?_⟩
  · intro w loc ms h1 h2
    simp only [MainRFC.widgetToDOM, h1, localeStringOrFallback, h2]
  · intro w loc h1 h2
    simp only [MainEpoch.widgetToDOM, h1, localeStringOrFallback, h2, if_true]
  · intro s loc cap ms he h1 h2 h3
    simp only [MainRFC.processCode, he, h1, h2, localeStringOrFallback, h3,
      Bool.false_eq_true, if_false]
  · intro s loc ds he h1 hne hdig h2 h3
    have hp : parseIntDigits ds = some (digitsToNat ds) := by
      simp [parseIntDigits, hne, hdig]
    simp only [MainEpoch.processCode, he, h1, hp, h2, localeStringOrFallback, h3,
      Bool.false_eq_true, if_false, if_true]

/-- C5 amended-claim witness: the RFC editor widget of main.ts, rendered
with a throwing locale, falls back to the plain string. -/
theorem c5_maints_title_fallback_witness :
    MainRFC.widgetToDOM ⟨"2023-01-01T00:00:00Z"⟩ ⟨fun _ _ => .error (), fun _ _ => .ok ""⟩ =
      .elem "span" ["rfc3339-relative-time-widget-wrapper"] []
        [.elem "span" ["rfc3339-relative-time-styled-codeblock"] []
          [mkRelTime []
            [("datetime", toISOStringOfMs 1672531200000),
             ("title", jsDateToString 1672531200000)]]] :=
  c5_maints_title_fallback.1 ⟨"2023-01-01T00:00:00Z"⟩
    ⟨fun _ _ => .error (), fun _ _ => .ok ""⟩ 1672531200000 (by rfl) (by rfl)

/-! ## Claim C9 -/

/-- C9: each static-view transform replaces a `<code>` element's content
only when the element's complete text content matches the anchored token
grammar and the match resolves to a valid instant; any element whose
content is not a full grammar match, or whose instant is invalid, keeps
its original content.  (For an out-of-range epoch the Discord transform
raises before mutating, so the content still stands.)  Stated for all
three transforms: RFC-3339 (main.ts), epoch-tag (main.ts) and RFC-3339
with date-only (part_000). -/
theorem c9_static_view_full_match_only :
    (∀ (s : String) (loc : JsLocale) (cls : List String) (ch : List Dom),
        MainEpoch.processCode s loc = .replaced cls ch →
        ∃ ds, readingViewTimestampMatch s.data = some ds ∧
          msInRange ((digitsToNat ds : Int) * 1000) = true) ∧
    (∀ (s : String) (loc : JsLocale),
        readingViewTimestampMatch s.data = none →
        (MainEpoch.processCode s loc).contentUntouched = true) ∧
    (∀ (s : String) (loc : JsLocale) (ds : List Char),
        readingViewTimestampMatch s.data = some ds →
        msInRange ((digitsToNat ds : Int) * 1000) = false →
        (MainEpoch.processCode s loc).contentUntouched = true) ∧
    (∀ (s : String) (loc : JsLocale) (cls : List String) (ch : List Dom),
        PartRFC.processCode s loc = .replaced cls ch →
        ∃ cap d, fullMatchRfcPart s.data = some (cap, d) ∧
          (PartRFC.resolve cap d).isSome = true) ∧
    (∀ (s : String) (loc : JsLocale),
        fullMatchRfcPart s.data = none →
        (PartRFC.processCode s loc).contentUntouched = true) ∧
    (∀ (s : String) (loc : JsLocale) (cap : String) (d : Bool),
        fullMatchRfcPart s.data = some (cap, d) →
        PartRFC.resolve cap d = none →
        (PartRFC.processCode s loc).contentUntouched = true) ∧
    (∀ (s : String) (loc : JsLocale) (cls : List String) (ch : List Dom),
        MainRFC.processCode s loc = .replaced cls ch →
        ∃ cap, readingViewRfc3339Match s.data = some cap ∧
          (MainRFC.resolve cap).isSome = true) ∧
    (∀ (s : String) (loc : JsLocale),
        readingViewRfc3339Match s.data = none →
        (MainRFC.processCode s loc).contentUntouched = true) ∧
    (∀ (s : String) (loc : JsLocale) (cap : String),
        readingViewRfc3339Match s.data = some cap →
        MainRFC.resolve cap = none →
        (MainRFC.processCode s loc).contentUntouched = true) := by
  refine ⟨?_, ?_, ?_, ?_, ?_, ?_, ?_, ?_, ?_⟩
  · intro s loc cls ch h
    unfold MainEpoch.processCode at h
    split at h
    · cases h
    · split at h
      · cases h
      · rename_i ds hds
        split at h
        · cases h
        · rename_i n hn
          split at h
          · rename_i hrange
            have hnd : n = digitsToNat ds := by
              unfold parseIntDigits at hn
              split at hn
              · injection hn with hn'
                exact hn'.symm
              · cases hn
            exact ⟨ds, hds, by rw [← hnd]; exact hrange⟩
          · cases h
  · intro s loc h
    unfold MainEpoch.processCode
    split
    · rfl
    · simp only [h, ElemResult.contentUntouched]
  · intro s loc ds hds hrange
    unfold MainEpoch.processCode
    split
    · rfl
    · simp only [hds]
      cases hn : parseIntDigits ds with
      | none => simp only [ElemResult.contentUntouched]
      | some n =>
        have hnd : n = digitsToNat ds := by
          unfold parseIntDigits at hn
          split at hn
          · injection hn with hn'
            exact hn'.symm
          · cases hn
        subst hnd
        simp [hrange, ElemResult.contentUntouched]
  · intro s loc cls ch h
    unfold PartRFC.processCode at h
    split at h
    · cases h
    · split at h
      · cases h
      · rename_i cap d hx
        split at h
        · cases h
        · rename_i ms hms
          exact ⟨cap, d, hx, by rw [hms]; rfl⟩
  · intro s loc h
    unfold PartRFC.processCode
    split
    · rfl
    · simp only [h, ElemResult.contentUntouched]
  · intro s loc cap d hmatch hres
    unfold PartRFC.processCode
    split
    · rfl
    · simp only [hmatch, hres, ElemResult.contentUntouched]
  · intro s loc cls ch h
    unfold MainRFC.processCode at h
    split at h
    · cases h
    · split at h
      · cases h
      · rename_i cap hcap
        split at h
        · cases h
        · rename_i ms hms
          exact ⟨cap, hcap, by rw [hms]; rfl⟩
  · intro s loc h
    unfold MainRFC.processCode
    split
    · rfl
    · simp only [h, ElemResult.contentUntouched]
  · intro s loc cap hmatch hres
    unfold MainRFC.processCode
    split
    · rfl
    · simp only [hmatch, hres, ElemResult.contentUntouched]

/-- C9 witness: a `<code>` element containing exactly `<t:1700000000>`
is replaced (shown by evaluation), while one containing
`prefix <t:1700000000> suffix` is not a full match and keeps its
content, by the theorem. -/
theorem c9_static_view_full_match_only_witness :
    (MainEpoch.processCode "prefix <t:1700000000> suffix"
        ⟨fun _ _ => .ok "t", fun _ _ => .ok "a"⟩).contentUntouched = true
    ∧ (MainEpoch.processCode "<t:1700000000>"
        ⟨fun _ _ => .ok "t", fun _ _ => .ok "a"⟩).contentUntouched = false :=
  ⟨c9_static_view_full_match_only.2.1 "prefix <t:1700000000> suffix"
      ⟨fun _ _ => .ok "t", fun _ _ => .ok "a"⟩ (by rfl),
   by rfl⟩

/-! ## Claim C10 -/

/-- C10: if an RFC-3339 editor widget's DOM builder is invoked with a
date string that does not resolve to a valid instant, it does not throw
and emits no `relative-time` element: it returns the wrapper containing
only the styled span with the raw string as plain text.  Holds for
main.ts's `RFC3339TimestampWidget.toDOM` (a total function) and
part_000's `RFC3339Widget.toDOM` (returns normally, `.ok`). -/
theorem c10_invalid_renders_raw_text :
    (∀ (w : MainRFC.RFC3339TimestampWidget) (loc : JsLocale),
        MainRFC.resolve w.rfc3339String = none →
        MainRFC.widgetToDOM w loc =
          .elem "span" ["rfc3339-relative-time-widget-wrapper"] []
            [.elem "span" ["rfc3339-relative-time-styled-codeblock"] []
              [.text w.rfc3339String]]) ∧
    (∀ (w : PartRFC.RFC3339Widget) (loc : JsLocale),
        PartRFC.resolve w.matchedDateString w.isDateOnly = none →
        PartRFC.widgetToDOM w loc =
          .ok (.elem "span" ["rfc3339-relative-time-widget-wrapper"] []
            [.elem "span" ["rfc3339-relative-time-styled-codeblock"] []
              [.text w.matchedDateString]])) := by
  constructor
  · intro w loc h
    simp only [MainRFC.widgetToDOM, h]
  · intro w loc h
    simp only [PartRFC.widgetToDOM, h]

/-- C10 witness: the invalid calendar date `2023-13-45` renders as raw
text in both widgets. -/
theorem c10_invalid_renders_raw_text_witness :
    MainRFC.widgetToDOM ⟨"2023-13-45T00:00:00Z"⟩ ⟨fun _ _ => .ok "t", fun _ _ => .ok "a"⟩ =
      .elem "span" ["rfc3339-relative-time-widget-wrapper"] []
        [.elem "span" ["rfc3339-relative-time-styled-codeblock"] []
          [.text "2023-13-45T00:00:00Z"]]
    ∧ PartRFC.widgetToDOM ⟨"2023-13-45", true⟩ ⟨fun _ _ => .ok "t", fun _ _ => .ok "a"⟩ =
      .ok (.elem "span" ["rfc3339-relative-time-widget-wrapper"] []
        [.elem "span" ["rfc3339-relative-time-styled-codeblock"] []
          [.text "2023-13-45"]]) :=
  ⟨c10_invalid_renders_raw_text.1 ⟨"2023-13-45T00:00:00Z"⟩
      ⟨fun _ _ => .ok "t", fun _ _ => .ok "a"⟩ (by rfl),
   c10_invalid_renders_raw_text.2 ⟨"2023-13-45", true⟩
      ⟨fun _ _ => .ok "t", fun _ _ => .ok "a"⟩ (by rfl)⟩

end RelTime
